import Mathlib

/-!
# Verification of the deep-research-mcp research orchestration engine

A shallow embedding, in Lean 4, of the orchestration logic of the
deep-research-mcp repository: the adaptive-concurrency search dispatcher
(`AdaptiveSearchClient`), the TTL caches (`LRUContentCache`,
`BatchedModelProvider`'s generation cache, `MultiLevelCache`), the source
reliability evaluator (`DefaultSourceEvaluationService`), the recursive
research driver (`DefaultResearchService.executeResearchDepth`) and the
MCP tool layer's input validation and statistics reporting.

Conventions of the embedding:
* JavaScript numbers are modelled as `ℚ` (rationals) where fractional
  values occur (error rates, latencies, reliability scores) and as `ℤ`
  where the source only ever holds integers (timestamps from `Date.now()`,
  concurrency counters).  A JavaScript division whose divisor may be zero
  is modelled as an `Option ℚ`, `none` standing for `NaN`.
* A JavaScript `Map` (which preserves insertion order) is modelled as an
  association list in insertion order: deletion removes the pair,
  insertion appends at the tail.
* `async` methods that consult external capabilities (the search provider,
  the language model) are modelled as pure functions taking the
  capability's reply — an `Except`/`Option` value — as an argument, plus
  the relevant `Date.now()` readings as explicit `ℤ` arguments.
* Fallible TypeScript code that returns the repository's `Result<T, E>`
  union is modelled by the inductive `Result` below.
-/

/-- The `Result<T, E>` from `src/shared/Result.ts`:
`{ success: true; data: T } | { success: false; error: E }`. -/
inductive Result (T : Type) (E : Type) where
  | Ok (data : T)
  | Err (error : E)
deriving Repr, DecidableEq

/-- The `AIModelError` from `src/shared/errors.ts`: a `ResearchError` subclass
carrying a message and an optional cause (the cause is kept abstract as a
string). -/
structure AIModelError where
  message : String
  cause : Option String
deriving Repr, DecidableEq

/-! ## Adaptive concurrency control (`AdaptiveSearchClient`) -/

/-- The `MetricsSummary` from `src/infrastructure/metrics/PerformanceMetrics.ts`,
restricted to the fields `adjustConcurrencyIfNeeded` reads.  `errorRate`
is `errors / count` and `p95Duration` the 95th-percentile latency, both
computed by `PerformanceMetrics.getMetrics`. -/
structure MetricsSummary where
  count : ℕ
  errors : ℕ
  errorRate : ℚ
  p95Duration : ℚ
deriving Repr, DecidableEq

/-- The mutable fields of `AdaptiveSearchClient`
(`src/infrastructure/search/AdaptiveSearchClient.ts`) that the
concurrency-adjustment logic touches. -/
structure AdaptiveSearchClient where
  concurrency : ℤ
  lastAdjustment : ℤ
deriving Repr, DecidableEq

/-- The `private readonly adjustmentInterval = 10000`. -/
def AdaptiveSearchClient.adjustmentInterval : ℤ := 10000

/-- The `private readonly minConcurrency = 1`. -/
def AdaptiveSearchClient.minConcurrency : ℤ := 1

/-- The `private readonly maxConcurrency = 8`. -/
def AdaptiveSearchClient.maxConcurrency : ℤ := 8

/-- The constructor state: `private concurrency = 2` and
`private lastAdjustment = Date.now()` (the construction time `t0`). -/
def AdaptiveSearchClient.initial (t0 : ℤ) : AdaptiveSearchClient :=
  { concurrency := 2, lastAdjustment := t0 }

/-- The error-rate / latency case analysis inside
`adjustConcurrencyIfNeeded` that computes the candidate new value of
`this.concurrency` (the `if`/`else if` chain assigning to
`this.concurrency`): decrement clamped at `minConcurrency` when
`errorRate > 0.2`; else increment clamped at `maxConcurrency` when
`errorRate < 0.05 && p95Duration < 5000`; else decrement clamped at
`minConcurrency` when `p95Duration > 10000`; else leave unchanged. -/
def AdaptiveSearchClient.newCeiling (st : AdaptiveSearchClient)
    (m : MetricsSummary) : ℤ :=
  if m.errorRate > 0.2 then
    max AdaptiveSearchClient.minConcurrency (st.concurrency - 1)
  else if m.errorRate < 0.05 ∧ m.p95Duration < 5000 then
    min AdaptiveSearchClient.maxConcurrency (st.concurrency + 1)
  else if m.p95Duration > 10000 then
    max AdaptiveSearchClient.minConcurrency (st.concurrency - 1)
  else
    st.concurrency

/-- The `AdaptiveSearchClient.adjustConcurrencyIfNeeded`, with the two
external reads made explicit: `now` is the `Date.now()` reading and
`metrics` the value of `this.metrics.getMetrics('search')` (`none` models
the `null` returned when no samples exist).  The method returns early when
the adjustment interval has not elapsed or fewer than 5 samples exist;
otherwise it applies the error-rate / latency rule (`newCeiling`) and,
only when the ceiling actually changed, rebuilds the limiter and records
`now` as the last adjustment time. -/
def AdaptiveSearchClient.adjustConcurrencyIfNeeded
    (st : AdaptiveSearchClient) (now : ℤ) (metrics : Option MetricsSummary) :
    AdaptiveSearchClient :=
  if now - st.lastAdjustment < AdaptiveSearchClient.adjustmentInterval then
    st
  else
    match metrics with
    | none => st
    | some m =>
      if m.count < 5 then
        st
      else
        if st.newCeiling m ≠ st.concurrency then
          { concurrency := st.newCeiling m, lastAdjustment := now }
        else
          st

/-- Running a whole sequence of adjustment evaluations (one per completed
search call, each with its own `Date.now()` reading and metrics snapshot). -/
def AdaptiveSearchClient.runAdjustments (st : AdaptiveSearchClient) :
    List (ℤ × Option MetricsSummary) → AdaptiveSearchClient
  | [] => st
  | (now, m) :: rest =>
      AdaptiveSearchClient.runAdjustments
        (st.adjustConcurrencyIfNeeded now m) rest

/-- The adjustment rule exactly as the specification words it, for
comparison with the code's `adjustConcurrencyIfNeeded`: decrement clamped
at the minimum when the error rate exceeds 20%; else increment clamped at
the maximum when the error rate is below 5% and p95 latency below the low
threshold; else decrement clamped at the minimum when p95 latency exceeds
the high threshold; else unchanged. -/
def specAdjustedCeiling (minC maxC ceiling : ℤ)
    (errorRate p95 lowThr highThr : ℚ) : ℤ :=
  if errorRate > 1/5 then max minC (ceiling - 1)
  else if errorRate < 1/20 ∧ p95 < lowThr then min maxC (ceiling + 1)
  else if p95 > highThr then max minC (ceiling - 1)
  else ceiling

lemma AdaptiveSearchClient.newCeiling_bounds
    (st : AdaptiveSearchClient) (m : MetricsSummary)
    (h : 1 ≤ st.concurrency ∧ st.concurrency ≤ 8) :
    1 ≤ st.newCeiling m ∧ st.newCeiling m ≤ 8 := by
  unfold AdaptiveSearchClient.newCeiling
  simp only [AdaptiveSearchClient.minConcurrency,
    AdaptiveSearchClient.maxConcurrency]
  split
  · omega
  · split
    · omega
    · split
      · omega
      · exact h

lemma AdaptiveSearchClient.concurrency_adjust_bounds
    (st : AdaptiveSearchClient) (now : ℤ) (metrics : Option MetricsSummary)
    (h : 1 ≤ st.concurrency ∧ st.concurrency ≤ 8) :
    1 ≤ (st.adjustConcurrencyIfNeeded now metrics).concurrency ∧
      (st.adjustConcurrencyIfNeeded now metrics).concurrency ≤ 8 := by
  unfold AdaptiveSearchClient.adjustConcurrencyIfNeeded
  split
  · exact h
  · match metrics with
    | none => exact h
    | some m =>
      simp only
      split
      · exact h
      · split
        · simpa using AdaptiveSearchClient.newCeiling_bounds st m h
        · exact h

lemma AdaptiveSearchClient.runAdjustments_bounds
    (events : List (ℤ × Option MetricsSummary)) (st : AdaptiveSearchClient)
    (h : 1 ≤ st.concurrency ∧ st.concurrency ≤ 8) :
    1 ≤ (st.runAdjustments events).concurrency ∧
      (st.runAdjustments events).concurrency ≤ 8 := by
  induction events generalizing st with
  | nil => exact h
  | cons e rest ih =>
    exact ih _ (AdaptiveSearchClient.concurrency_adjust_bounds st e.1 e.2 h)

/-- C1: starting from the constructed state (ceiling 2), after any
sequence of adjustment evaluations — each with an arbitrary clock reading
and metrics snapshot — the concurrency ceiling stays within
`[minConcurrency, maxConcurrency] = [1, 8]`. -/
theorem adaptive_concurrency_ceiling_in_bounds
    (t0 : ℤ) (events : List (ℤ × Option MetricsSummary)) :
    AdaptiveSearchClient.minConcurrency ≤
        ((AdaptiveSearchClient.initial t0).runAdjustments events).concurrency ∧
      ((AdaptiveSearchClient.initial t0).runAdjustments events).concurrency ≤
        AdaptiveSearchClient.maxConcurrency := by
  have h := AdaptiveSearchClient.runAdjustments_bounds events
    (AdaptiveSearchClient.initial t0)
    (by refine ⟨?_, ?_⟩ <;> simp [AdaptiveSearchClient.initial])
  exact ⟨h.1, h.2⟩

/-- C2: whenever the adjustment rule is actually evaluated (interval
elapsed and at least 5 samples recorded), the new ceiling is exactly what
the specification's piecewise rule prescribes, with thresholds 20%, 5%,
low-latency 5000 ms and high-latency 10000 ms and bounds `[1, 8]`, and in
particular the ceiling moves by at most 1. -/
theorem adjustConcurrencyIfNeeded_rule
    (st : AdaptiveSearchClient) (now : ℤ) (m : MetricsSummary)
    (hElapsed : ¬ now - st.lastAdjustment < AdaptiveSearchClient.adjustmentInterval)
    (hSamples : 5 ≤ m.count)
    (hBounds : 1 ≤ st.concurrency ∧ st.concurrency ≤ 8) :
    (st.adjustConcurrencyIfNeeded now (some m)).concurrency =
        specAdjustedCeiling AdaptiveSearchClient.minConcurrency
          AdaptiveSearchClient.maxConcurrency st.concurrency
          m.errorRate m.p95Duration 5000 10000 ∧
      (st.adjustConcurrencyIfNeeded now (some m)).concurrency ≤ st.concurrency + 1 ∧
      st.concurrency ≤ (st.adjustConcurrencyIfNeeded now (some m)).concurrency + 1 := by
  have h02 : (0.2 : ℚ) = 1/5 := by norm_num
  have h005 : (0.05 : ℚ) = 1/20 := by norm_num
  have hspec : specAdjustedCeiling AdaptiveSearchClient.minConcurrency
      AdaptiveSearchClient.maxConcurrency st.concurrency
      m.errorRate m.p95Duration 5000 10000 = st.newCeiling m := by
    unfold specAdjustedCeiling AdaptiveSearchClient.newCeiling
    rw [h02, h005]
  have hres : (st.adjustConcurrencyIfNeeded now (some m)).concurrency =
      st.newCeiling m := by
    unfold AdaptiveSearchClient.adjustConcurrencyIfNeeded
    rw [if_neg hElapsed]
    simp only
    rw [if_neg (by omega)]
    split
    · rfl
    · simp_all
  have hdelta := AdaptiveSearchClient.newCeiling_bounds st m hBounds
  have hnear : st.newCeiling m ≤ st.concurrency + 1 ∧
      st.concurrency ≤ st.newCeiling m + 1 := by
    unfold AdaptiveSearchClient.newCeiling at *
    simp only [AdaptiveSearchClient.minConcurrency,
      AdaptiveSearchClient.maxConcurrency] at *
    split at hdelta
    · omega
    · split at hdelta
      · omega
      · split at hdelta
        · omega
        · omega
  exact ⟨by rw [hres, hspec], by rw [hres]; exact hnear.1,
    by rw [hres]; exact hnear.2⟩

/-- Witness for C2 at a concrete state: ceiling 2, 10 samples, 30% error
rate — the rule fires and decrements the ceiling to 1. -/
theorem adjustConcurrencyIfNeeded_rule_witness :
    ¬ (10000 : ℤ) - (AdaptiveSearchClient.initial 0).lastAdjustment <
        AdaptiveSearchClient.adjustmentInterval ∧
      5 ≤ (10 : ℕ) ∧
      ((AdaptiveSearchClient.initial 0).adjustConcurrencyIfNeeded 10000
          (some ⟨10, 3, 3/10, 4000⟩)).concurrency =
        specAdjustedCeiling AdaptiveSearchClient.minConcurrency
          AdaptiveSearchClient.maxConcurrency 2 (3/10) 4000 5000 10000 := by
  refine ⟨by decide, by decide, ?_⟩
  have h := adjustConcurrencyIfNeeded_rule (AdaptiveSearchClient.initial 0)
    10000 ⟨10, 3, 3/10, 4000⟩ (by decide) (by decide) (by constructor <;> decide)
  exact h.1

/-! ## A model of JavaScript `Map<string, V>`

`Map` preserves insertion order: `set` of a fresh key appends at the
tail, `set` of an existing key updates the value in place, `delete`
removes the pair.  We model it as an association list in insertion
order. -/

/-- The `Map.get`: the value stored under `k`, if any. -/
def mapLookup {V : Type} : List (String × V) → String → Option V
  | [], _ => none
  | (k', v) :: rest, k => if k' = k then some v else mapLookup rest k

/-- The `Map.delete`: remove the pair stored under `k`. -/
def mapDelete {V : Type} (m : List (String × V)) (k : String) :
    List (String × V) :=
  m.filter (fun p => p.1 ≠ k)

/-- The `Map.set`: update in place when the key exists, else append. -/
def mapSet {V : Type} : List (String × V) → String → V → List (String × V)
  | [], k, v => [(k, v)]
  | (k', v') :: rest, k, v =>
      if k' = k then (k, v) :: rest else (k', v') :: mapSet rest k v

lemma mapLookup_mapDelete {V : Type} (m : List (String × V)) (k : String) :
    mapLookup (mapDelete m k) k = none := by
  induction m with
  | nil => rfl
  | cons p rest ih =>
    by_cases h : p.1 = k
    · simpa [mapDelete, h] using ih
    · simpa [mapDelete, mapLookup, h] using ih

lemma mapLookup_mapSet {V : Type} (m : List (String × V)) (k : String) (v : V) :
    mapLookup (mapSet m k v) k = some v := by
  induction m with
  | nil => simp [mapSet, mapLookup]
  | cons p rest ih =>
    by_cases h : p.1 = k
    · simp [mapSet, mapLookup, h]
    · cases p with
      | mk k' v' =>
        simp only at h
        simp [mapSet, mapLookup, h, ih]

/-! ## `LRUContentCache` (`src/infrastructure/content/ContentCache.ts`) -/

/-- The `CacheEntry<T>` from `ContentCache.ts`: value, creation timestamp and
access counter. -/
structure CacheEntry (T : Type) where
  value : T
  timestamp : ℤ
  accessCount : ℕ
deriving Repr, DecidableEq

/-- The `LRUContentCache<T>` state: insertion-ordered map plus the
configured `maxSize` (default 100) and per-cache `ttl` in ms (default
30 minutes). -/
structure LRUContentCache (T : Type) where
  cache : List (String × CacheEntry T)
  maxSize : ℕ
  ttl : ℤ
deriving Repr, DecidableEq

/-- The `LRUContentCache.get`, with the `Date.now()` reading passed as `now`.
A missing key returns `null`; an entry with `now - entry.timestamp >
this.ttl` is deleted and reported as `null`; otherwise the access count
is bumped and the pair moved to the tail (most recently used), and
`entry.value` is returned. -/
def LRUContentCache.get {T : Type} (c : LRUContentCache T) (k : String)
    (now : ℤ) : Option T × LRUContentCache T :=
  match mapLookup c.cache k with
  | none => (none, c)
  | some entry =>
    if now - entry.timestamp > c.ttl then
      (none, { c with cache := mapDelete c.cache k })
    else
      let entry' := { entry with accessCount := entry.accessCount + 1 }
      (some entry.value,
        { c with cache := mapSet (mapDelete c.cache k) k entry' })

/-- The `LRUContentCache.set`, with the `Date.now()` reading passed as `now`:
delete an existing entry for the key, evict the least-recently-used
(head) pair when at capacity, then append a fresh entry with access
count 1. -/
def LRUContentCache.set {T : Type} (c : LRUContentCache T) (k : String)
    (v : T) (now : ℤ) : LRUContentCache T :=
  let c1 := if (mapLookup c.cache k).isSome then mapDelete c.cache k
            else c.cache
  let c2 := if c1.length ≥ c.maxSize then c1.tail else c1
  { c with cache := mapSet c2 k { value := v, timestamp := now, accessCount := 1 } }

/-! ## `BatchedModelProvider` (`src/infrastructure/ai/BatchedModelProvider.ts`) -/

/-- The `UsageStats` from `ModelProvider.ts`. -/
structure UsageStats where
  totalCalls : ℕ
  totalTokens : ℕ
  cacheHits : ℕ
  averageLatency : ℚ
deriving Repr, DecidableEq

/-- The `GenerationParams` from `ModelProvider.ts`, with the schema kept as
its `JSON.stringify` image (the only use the provider makes of it when
building cache keys) and the model handle dropped (opaque). -/
structure GenerationParams where
  system : Option String
  prompt : String
  schemaJson : String
deriving Repr, DecidableEq

/-- The `CacheEntry<T>` from `BatchedModelProvider.ts`: the cached generation
result, its creation timestamp and its per-entry ttl in ms. -/
structure BatchedModelProvider.CacheEntry (T : Type) where
  result : T
  timestamp : ℤ
  ttl : ℤ
deriving Repr, DecidableEq

/-- The `BatchedModelProvider` state: the private generation cache and
usage stats. -/
structure BatchedModelProvider (T : Type) where
  cache : List (String × BatchedModelProvider.CacheEntry T)
  stats : UsageStats
deriving Repr, DecidableEq

/-- The `getCacheKey`: the joined string
```${params.system || ''}|${params.prompt}|${JSON.stringify(params.schema)}``
run through `Buffer.from(key).toString('base64').slice(0, 64)`.  The
base64-encode-and-truncate step is kept abstract as `encode`, an
arbitrary (deterministic) function of the joined key. -/
def BatchedModelProvider.getCacheKey (encode : String → String)
    (params : GenerationParams) : String :=
  encode ((params.system.getD "") ++ "|" ++ params.prompt ++ "|" ++ params.schemaJson)

/-- The `getFromCache`, with the `Date.now()` reading passed as `now`: a
missing key is `null`, an entry with `now > entry.timestamp + entry.ttl`
is deleted and reported as `null`, otherwise the stored result is
returned with the cache untouched. -/
def BatchedModelProvider.getFromCache {T : Type} (p : BatchedModelProvider T)
    (key : String) (now : ℤ) : Option T × BatchedModelProvider T :=
  match mapLookup p.cache key with
  | none => (none, p)
  | some entry =>
    if now > entry.timestamp + entry.ttl then
      (none, { p with cache := mapDelete p.cache key })
    else
      (some entry.result, p)

/-- The `cleanupCache`: drop every entry with `now > timestamp + ttl`. -/
def BatchedModelProvider.cleanupCache {T : Type} (p : BatchedModelProvider T)
    (now : ℤ) : BatchedModelProvider T :=
  let swept := p.cache.filter (fun e => ¬ now > e.2.timestamp + e.2.ttl)
  { p with cache := swept }

/-- The `setCache`: store the entry under the key, then run the bounded sweep
when the cache holds more than 1000 entries. -/
def BatchedModelProvider.setCache {T : Type} (p : BatchedModelProvider T)
    (key : String) (result : T) (ttl : ℤ) (now : ℤ) : BatchedModelProvider T :=
  let entry : BatchedModelProvider.CacheEntry T :=
    { result := result, timestamp := now, ttl := ttl }
  let p1 := { p with cache := mapSet p.cache key entry }
  if p1.cache.length > 1000 then p1.cleanupCache now else p1

/-- The `updateStats`: running-average latency update plus token accounting
(`usage` is `none` when the reply carried no usage record). -/
def BatchedModelProvider.updateStats {T : Type} (p : BatchedModelProvider T)
    (duration : ℚ) (usage : Option ℕ) : BatchedModelProvider T :=
  let s := p.stats
  let s1 := { s with averageLatency :=
      (s.averageLatency * (s.totalCalls - 1 : ℕ) + duration) / (s.totalCalls : ℚ) }
  { p with stats :=
      match usage with
      | some tk => { s1 with totalTokens := s1.totalTokens + tk }
      | none => s1 }

/-- The `BatchedModelProvider.generateObject`, with the model capability's
reply passed as `oracle : Except String T` (`Except.error` models a
thrown provider error), `usage` its token-usage record, `tCheck` the
`Date.now()` reading used for the cache lookup and `tDone` the reading
taken when the model call settles.  Returns the `Result`, the new
provider state, and whether the underlying `generateObject` model call
was actually issued. -/
def BatchedModelProvider.generateObject {T : Type} (p : BatchedModelProvider T)
    (encode : String → String) (params : GenerationParams)
    (oracle : Except String T) (usage : Option ℕ) (tCheck tDone : ℤ) :
    Result T AIModelError × BatchedModelProvider T × Bool :=
  let p1 := { p with stats := { p.stats with totalCalls := p.stats.totalCalls + 1 } }
  let key := BatchedModelProvider.getCacheKey encode params
  match p1.getFromCache key tCheck with
  | (some cached, p2) =>
      (Result.Ok cached,
        { p2 with stats := { p2.stats with cacheHits := p2.stats.cacheHits + 1 } },
        false)
  | (none, p2) =>
    match oracle with
    | .ok v =>
        let p3 := p2.updateStats ((tDone - tCheck : ℤ) : ℚ) usage
        let p4 := p3.setCache key v (5 * 60 * 1000) tDone
        (Result.Ok v, p4, true)
    | .error e =>
        let p3 := p2.updateStats ((tDone - tCheck : ℤ) : ℚ) none
        (Result.Err { message := "Failed to generate object", cause := some e }, p3, true)

/-- C8 counterexample: an entry created at time 0 with ttl 10 is still
returned by `LRUContentCache.get` at `now = 10 = created + ttl`, because
the code expires only on the strict comparison `now - timestamp > ttl` —
the claim predicts absence for every `now ≥ created + ttl`. -/
theorem lru_get_at_exact_expiry_counterexample :
    (10 : ℤ) ≥ 0 + 10 ∧
      (LRUContentCache.get
        { cache := [("k", { value := 7, timestamp := 0, accessCount := 1 })],
          maxSize := 100, ttl := 10 } "k" (10 : ℤ)).1 = some (7 : ℕ) := by
  exact ⟨by decide, by decide⟩

/-- C8 (amended): in both TTL caches an entry is visible exactly while
`now ≤ created + ttl`: a get at `now > created + ttl` (strictly later
than the expiry instant) returns absent and removes the entry, while a
get at `now ≤ created + ttl` returns the stored value. -/
theorem ttl_get_visible_iff_now_le_expiry
    {T U : Type} (c : LRUContentCache T) (p : BatchedModelProvider U)
    (k key : String) (e : CacheEntry T)
    (g : BatchedModelProvider.CacheEntry U) (now now2 : ℤ)
    (hc : mapLookup c.cache k = some e)
    (hp : mapLookup p.cache key = some g) :
    (now - e.timestamp > c.ttl →
      (c.get k now).1 = none ∧ mapLookup (c.get k now).2.cache k = none) ∧
    (¬ now - e.timestamp > c.ttl → (c.get k now).1 = some e.value) ∧
    (now2 > g.timestamp + g.ttl →
      (p.getFromCache key now2).1 = none ∧
        mapLookup (p.getFromCache key now2).2.cache key = none) ∧
    (¬ now2 > g.timestamp + g.ttl →
      (p.getFromCache key now2).1 = some g.result) := by
  refine ⟨fun hexp => ?_, fun hfresh => ?_, fun hexp => ?_, fun hfresh => ?_⟩
  · unfold LRUContentCache.get
    rw [hc]
    simp only [if_pos hexp]
    exact ⟨trivial, mapLookup_mapDelete c.cache k⟩
  · unfold LRUContentCache.get
    rw [hc]
    simp only [if_neg hfresh]
  · unfold BatchedModelProvider.getFromCache
    rw [hp]
    simp only [if_pos hexp]
    exact ⟨trivial, mapLookup_mapDelete p.cache key⟩
  · unfold BatchedModelProvider.getFromCache
    rw [hp]
    simp only [if_neg hfresh]

/-- Witness for the amended C8 at concrete caches: an LRU cache entry
(created 0, ttl 10) and a provider cache entry (created 0, ttl 10),
probed at times 11 (absent, removed) and 10 (both still visible per the
other conjuncts, instantiated at `now = 11`, `now2 = 11`). -/
theorem ttl_get_visible_iff_now_le_expiry_witness :
    mapLookup ([("k", ({ value := 7, timestamp := 0, accessCount := 1 } :
        CacheEntry ℕ))]) "k" =
      some { value := 7, timestamp := 0, accessCount := 1 } ∧
    mapLookup ([("g", ({ result := 3, timestamp := 0, ttl := 10 } :
        BatchedModelProvider.CacheEntry ℕ))]) "g" =
      some { result := 3, timestamp := 0, ttl := 10 } ∧
    ((11 : ℤ) - 0 > 10 →
      ((LRUContentCache.get
          { cache := [("k", { value := 7, timestamp := 0, accessCount := 1 })],
            maxSize := 100, ttl := 10 } "k" 11).1 = (none : Option ℕ) ∧
        mapLookup (LRUContentCache.get
          { cache := [("k", { value := 7, timestamp := 0, accessCount := 1 })],
            maxSize := 100, ttl := 10 } "k" 11).2.cache "k" = none)) := by
  refine ⟨by decide, by decide, ?_⟩
  have h := ttl_get_visible_iff_now_le_expiry
    ({ cache := [("k", { value := 7, timestamp := 0, accessCount := 1 })],
       maxSize := 100, ttl := 10 } : LRUContentCache ℕ)
    ({ cache := [("g", { result := 3, timestamp := 0, ttl := 10 })],
       stats := { totalCalls := 0, totalTokens := 0, cacheHits := 0,
                  averageLatency := 0 } } : BatchedModelProvider ℕ)
    "k" "g" { value := 7, timestamp := 0, accessCount := 1 }
    { result := 3, timestamp := 0, ttl := 10 } 11 11
    (by decide) (by decide)
  exact fun hx => h.1 hx

lemma BatchedModelProvider.generateObject_hit {T : Type}
    (p : BatchedModelProvider T) (encode : String → String)
    (params : GenerationParams) (oracle : Except String T)
    (usage : Option ℕ) (tCheck tDone : ℤ)
    (e : BatchedModelProvider.CacheEntry T)
    (hEntry : mapLookup p.cache
      (BatchedModelProvider.getCacheKey encode params) = some e)
    (hFresh : ¬ tCheck > e.timestamp + e.ttl) :
    p.generateObject encode params oracle usage tCheck tDone =
      (Result.Ok e.result,
        { p with stats := { p.stats with
            totalCalls := p.stats.totalCalls + 1,
            cacheHits := p.stats.cacheHits + 1 } },
        false) := by
  unfold BatchedModelProvider.generateObject BatchedModelProvider.getFromCache
  simp [hEntry, hFresh]

/-- C4: when the provider cache holds an unexpired entry for the request's
key, a `generateObject` call returns exactly the stored result and does
not issue the underlying model call; running the same request a second
time on the resulting state — with any model oracle — again returns the
identical stored result with no model call. -/
theorem generateObject_cache_hit_short_circuits {T : Type}
    (p : BatchedModelProvider T) (encode : String → String)
    (params : GenerationParams) (oracle oracle2 : Except String T)
    (usage usage2 : Option ℕ) (t1 t1' t2 t2' : ℤ)
    (e : BatchedModelProvider.CacheEntry T)
    (hEntry : mapLookup p.cache
      (BatchedModelProvider.getCacheKey encode params) = some e)
    (h1 : ¬ t1 > e.timestamp + e.ttl) (h2 : ¬ t2 > e.timestamp + e.ttl) :
    (p.generateObject encode params oracle usage t1 t1').1 = Result.Ok e.result ∧
    (p.generateObject encode params oracle usage t1 t1').2.2 = false ∧
    ((p.generateObject encode params oracle usage t1 t1').2.1.generateObject
        encode params oracle2 usage2 t2 t2').1 = Result.Ok e.result ∧
    ((p.generateObject encode params oracle usage t1 t1').2.1.generateObject
        encode params oracle2 usage2 t2 t2').2.2 = false := by
  have hfst := BatchedModelProvider.generateObject_hit p encode params oracle
    usage t1 t1' e hEntry h1
  have hcache : mapLookup
      ((p.generateObject encode params oracle usage t1 t1').2.1).cache
      (BatchedModelProvider.getCacheKey encode params) = some e := by
    rw [hfst]
    exact hEntry
  have hsnd := BatchedModelProvider.generateObject_hit
    ((p.generateObject encode params oracle usage t1 t1').2.1) encode params
    oracle2 usage2 t2 t2' e hcache h2
  exact ⟨by rw [hfst], by rw [hfst], by rw [hsnd], by rw [hsnd]⟩

/-- Concrete generation request used by the C4 witness. -/
def sampleGenParams : GenerationParams :=
  { system := none, prompt := "p", schemaJson := "s" }

/-- Concrete cached generation entry used by the C4 witness. -/
def sampleGenEntry : BatchedModelProvider.CacheEntry ℕ :=
  { result := 42, timestamp := 0, ttl := 10 }

/-- Concrete provider state used by the C4 witness: its cache holds
`sampleGenEntry` under the key of `sampleGenParams` (identity encoding). -/
def sampleProvider : BatchedModelProvider ℕ :=
  { cache := [(BatchedModelProvider.getCacheKey (fun s => s) sampleGenParams,
      sampleGenEntry)],
    stats := { totalCalls := 0, totalTokens := 0, cacheHits := 0,
               averageLatency := 0 } }

/-- Witness for C4: on `sampleProvider`, a read at time 5 (entry created
at 0, ttl 10, so unexpired) returns the stored 42 even though the model
oracle would fail. -/
theorem generateObject_cache_hit_short_circuits_witness :
    mapLookup sampleProvider.cache
      (BatchedModelProvider.getCacheKey (fun s => s) sampleGenParams) =
      some sampleGenEntry ∧
    (sampleProvider.generateObject (fun s => s) sampleGenParams
      (Except.error "provider down") none 5 5).1 = Result.Ok 42 := by
  refine ⟨by decide, ?_⟩
  have h := generateObject_cache_hit_short_circuits sampleProvider
    (fun s => s) sampleGenParams
    (Except.error "provider down") (Except.error "provider down") none none
    5 5 5 5 sampleGenEntry (by decide) (by decide) (by decide)
  exact h.1

/-! ## `MultiLevelCache` (`src/infrastructure/cache/MultiLevelCache.ts`)

The composed tiers (`l1` memory, `l2` Redis, optional `l3` database) are
arbitrary `CacheService` implementations; what the composition logic
observes of a tier is which value a key holds and which TTL the tier was
asked to store it with.  A tier is therefore modelled as a map from key
to (value, ttlSeconds-as-requested). -/

/-- One cache tier as seen through the `CacheService` interface: for each
key, the stored value and the TTL (in seconds) passed to the tier's
`set`. -/
def TierState (T : Type) : Type := List (String × (T × ℕ))

/-- A tier read: the stored value, if any. -/
def TierState.get {T : Type} (t : TierState T) (k : String) : Option T :=
  (mapLookup t k).map Prod.fst

/-- A tier write with an explicit TTL in seconds. -/
def TierState.set {T : Type} (t : TierState T) (k : String) (v : T)
    (ttlSeconds : ℕ) : TierState T :=
  mapSet t k (v, ttlSeconds)

/-- Hit/miss counters kept per tier by `MultiLevelCache`. -/
structure TierHitStats where
  hits : ℕ
  misses : ℕ
deriving Repr, DecidableEq

/-- The `MultiLevelCache` state: the two mandatory tiers, the optional third
tier, and the per-tier hit statistics. -/
structure MultiLevelCache (T : Type) where
  l1 : TierState T
  l2 : TierState T
  l3 : Option (TierState T)
  statsL1 : TierHitStats
  statsL2 : TierHitStats
  statsL3 : TierHitStats

/-- The `// Max 5 min in L1`: the near tier's TTL cap of 300 seconds, used
both when `get` back-populates L1 and when `set` caps the requested TTL. -/
def MultiLevelCache.l1MaxTtlSeconds : ℕ := 300

/-- The `MultiLevelCache.get`: check L1; on miss check L2 and, on an L2 hit,
populate L1 with the 300-second TTL; on miss check L3 when configured
and, on an L3 hit, populate L2 (3600 s) and L1 (300 s); otherwise
`null`. -/
def MultiLevelCache.get {T : Type} (c : MultiLevelCache T) (k : String) :
    Option T × MultiLevelCache T :=
  match TierState.get c.l1 k with
  | some v =>
      (some v,
        { c with statsL1 := { c.statsL1 with hits := c.statsL1.hits + 1 } })
  | none =>
    let c1 :=
      { c with statsL1 := { c.statsL1 with misses := c.statsL1.misses + 1 } }
    match TierState.get c1.l2 k with
    | some v =>
        (some v,
          { c1 with
              statsL2 := { c1.statsL2 with hits := c1.statsL2.hits + 1 },
              l1 := c1.l1.set k v MultiLevelCache.l1MaxTtlSeconds })
    | none =>
      let c2 :=
        { c1 with
            statsL2 := { c1.statsL2 with misses := c1.statsL2.misses + 1 } }
      match c2.l3 with
      | some t3 =>
        match TierState.get t3 k with
        | some v =>
            (some v,
              { c2 with
                  statsL3 := { c2.statsL3 with hits := c2.statsL3.hits + 1 },
                  l2 := c2.l2.set k v 3600,
                  l1 := c2.l1.set k v MultiLevelCache.l1MaxTtlSeconds })
        | none =>
            (none,
              { c2 with
                  statsL3 :=
                    { c2.statsL3 with misses := c2.statsL3.misses + 1 } })
      | none => (none, c2)

/-- The `MultiLevelCache.set`: write every configured tier — L1 with
`min(ttlSeconds, 300)`, L2 with the requested TTL, L3 (when configured)
with twice the requested TTL.  (The source defaults `ttlSeconds` to 3600
when the caller omits it.) -/
def MultiLevelCache.set {T : Type} (c : MultiLevelCache T) (k : String)
    (v : T) (ttlSeconds : ℕ) : MultiLevelCache T :=
  { c with
      l1 := c.l1.set k v (min ttlSeconds MultiLevelCache.l1MaxTtlSeconds),
      l2 := c.l2.set k v ttlSeconds,
      l3 := c.l3.map (fun t3 => t3.set k v (ttlSeconds * 2)) }

/-- C7: tiered reads consult the near tier first and then the shared
tier, back-populating the near tier with TTL 300 (the near-tier cap) on
a shared-tier hit; tiered writes populate all configured tiers, the near
tier with `min(requested, 300)`, the shared tier with the requested TTL
and the third tier with twice the requested TTL. -/
theorem multiLevelCache_tiering {T : Type} (c : MultiLevelCache T)
    (k : String) (v w : T) (ttl : ℕ) :
    (TierState.get c.l1 k = some v →
      (c.get k).1 = some v ∧ (c.get k).2.l1 = c.l1 ∧ (c.get k).2.l2 = c.l2) ∧
    (TierState.get c.l1 k = none → TierState.get c.l2 k = some v →
      (c.get k).1 = some v ∧
        mapLookup (c.get k).2.l1 k =
          some (v, MultiLevelCache.l1MaxTtlSeconds) ∧
        (c.get k).2.l2 = c.l2) ∧
    (mapLookup (c.set k w ttl).l1 k =
        some (w, min ttl MultiLevelCache.l1MaxTtlSeconds) ∧
      mapLookup (c.set k w ttl).l2 k = some (w, ttl) ∧
      ∀ t3, c.l3 = some t3 →
        (c.set k w ttl).l3 = some (t3.set k w (ttl * 2)) ∧
          mapLookup (t3.set k w (ttl * 2)) k = some (w, ttl * 2)) := by
  refine ⟨fun h1 => ?_, fun h1 h2 => ?_, ?_, ?_, fun t3 h3 => ?_⟩
  · unfold MultiLevelCache.get
    rw [h1]
    exact ⟨rfl, rfl, rfl⟩
  · unfold MultiLevelCache.get
    rw [h1]
    simp only
    rw [h2]
    exact ⟨rfl, mapLookup_mapSet c.l1 k (v, MultiLevelCache.l1MaxTtlSeconds),
      rfl⟩
  · exact mapLookup_mapSet c.l1 k (w, min ttl MultiLevelCache.l1MaxTtlSeconds)
  · exact mapLookup_mapSet c.l2 k (w, ttl)
  · unfold MultiLevelCache.set
    simp only [h3, Option.map_some]
    exact ⟨rfl, mapLookup_mapSet t3 k (w, ttl * 2)⟩

/-- Concrete three-tier cache used by the C7 witness: L1 empty, L2 holds
`"k" ↦ (5, ttl 3600)`, L3 configured but empty. -/
def sampleMultiLevel : MultiLevelCache ℕ :=
  { l1 := [], l2 := [("k", (5, 3600))], l3 := some [],
    statsL1 := { hits := 0, misses := 0 },
    statsL2 := { hits := 0, misses := 0 },
    statsL3 := { hits := 0, misses := 0 } }

/-- Witness for C7 on `sampleMultiLevel`: the shared-tier hit branch fires
(L1 missed, L2 hit) and the near tier is populated with TTL 300. -/
theorem multiLevelCache_tiering_witness :
    TierState.get sampleMultiLevel.l1 "k" = none ∧
    TierState.get sampleMultiLevel.l2 "k" = some 5 ∧
    (sampleMultiLevel.get "k").1 = some 5 ∧
    mapLookup (sampleMultiLevel.get "k").2.l1 "k" =
      some (5, MultiLevelCache.l1MaxTtlSeconds) := by
  have h := (multiLevelCache_tiering sampleMultiLevel "k" 5 5 3600).2.1
    (by decide) (by decide)
  exact ⟨by decide, by decide, h.1, h.2.1⟩

/-! ## Research service (`src/domain/research/DefaultResearchService.ts`)

`DefaultResearchService.executeResearchDepth` recurses over depth levels.
The per-level external work — query generation (`generateQueries`),
parallel search (`executeSearches`) and source processing
(`processSearchResults`) — is modelled as an environment function `env`
mapping the remaining depth and the current context to the level's
`ProcessedResults`; `env` returning `none` models a level throwing (a
failed `generateQueries`), which makes the whole call throw. -/

/-- The `ResearchDirection` from `src/domain/research/types.ts`. -/
structure ResearchDirection where
  question : String
  priority : ℤ
  parentGoal : Option String
deriving Repr, DecidableEq

/-- A reliability-weighted learning (`weightedLearnings` element). -/
structure LearningWithReliability where
  content : String
  reliability : ℚ
deriving Repr, DecidableEq

/-- The `SourceMetadata` as consumed by the MCP handlers (url, title, domain,
reliability score and reasoning). -/
structure SourceMetadata where
  url : String
  title : Option String
  domain : String
  reliabilityScore : ℚ
  reliabilityReasoning : String
deriving Repr, DecidableEq

/-- The `ResearchContext` from `src/domain/research/types.ts`. -/
structure ResearchContext where
  learnings : List String
  learningReliabilities : List ℚ
  visitedUrls : List String
  researchDirections : List ResearchDirection
deriving Repr, DecidableEq

/-- The record produced by `processSearchResults` for one depth level. -/
structure ProcessedResults where
  newLearnings : List String
  newReliabilities : List ℚ
  newUrls : List String
  sourceMetadata : List SourceMetadata
  followUpDirections : List ResearchDirection
deriving Repr, DecidableEq

/-- The `ResearchResult` from `src/domain/research/types.ts` (the optional
budget summary is omitted: nothing in the verified claims reads it). -/
structure ResearchResult where
  learnings : List String
  learningReliabilities : List ℚ
  visitedUrls : List String
  sourceMetadata : List SourceMetadata
  weightedLearnings : List LearningWithReliability
deriving Repr, DecidableEq

/-- The `ResearchError` from `src/shared/errors.ts`. -/
structure ResearchError where
  message : String
deriving Repr, DecidableEq

/-- The JavaScript expression `x || d` for a number-or-undefined `x`:
`undefined` (here `none`) and the falsy number `0` both yield the
default `d`. -/
def jsNumberOr (x : Option ℚ) (d : ℚ) : ℚ :=
  match x with
  | none => d
  | some r => if r = 0 then d else r

/-- Helper for `weightedFrom`, carrying the running index of the
JavaScript `map((learning, i) => ...)` callback. -/
def weightedFromAux (rels : List ℚ) : List String → ℕ → List LearningWithReliability
  | [], _ => []
  | l :: rest, i =>
      { content := l, reliability := jsNumberOr (rels.get? i) (1/2) } ::
        weightedFromAux rels rest (i + 1)

/-- The `weightedLearnings` construction used on both exits of
`executeResearchDepth`:
`learnings.map((learning, i) => ({ content: learning, reliability: learningReliabilities[i] || 0.5 }))`. -/
def weightedFrom (learnings : List String) (rels : List ℚ) :
    List LearningWithReliability :=
  weightedFromAux rels learnings 0

/-- The `DefaultResearchService.executeResearchDepth`: at depth 0 return the
context as-is (empty `sourceMetadata`); otherwise run the level through
`env`, merge its results into the context by concatenation, and either
recurse (when more than one level remains) or return the merged context
with the level's `sourceMetadata`. -/
def DefaultResearchService.executeResearchDepth
    (env : ℕ → ResearchContext → Option ProcessedResults) :
    ResearchContext → ℕ → Option ResearchResult
  | context, 0 =>
      some
        { learnings := context.learnings,
          learningReliabilities := context.learningReliabilities,
          visitedUrls := context.visitedUrls,
          sourceMetadata := [],
          weightedLearnings :=
            weightedFrom context.learnings context.learningReliabilities }
  | context, d + 1 =>
    match env (d + 1) context with
    | none => none
    | some processedResults =>
      let updatedContext : ResearchContext :=
        { learnings := context.learnings ++ processedResults.newLearnings,
          learningReliabilities :=
            context.learningReliabilities ++ processedResults.newReliabilities,
          visitedUrls := context.visitedUrls ++ processedResults.newUrls,
          researchDirections := processedResults.followUpDirections }
      if d + 1 > 1 then
        DefaultResearchService.executeResearchDepth env updatedContext d
      else
        some
          { learnings := updatedContext.learnings,
            learningReliabilities := updatedContext.learningReliabilities,
            visitedUrls := updatedContext.visitedUrls,
            sourceMetadata := processedResults.sourceMetadata,
            weightedLearnings :=
              weightedFrom updatedContext.learnings
                updatedContext.learningReliabilities }

/-- The `DefaultResearchService.conductResearch`: start from the empty
context, run `executeResearchDepth`, wrap the outcome in `Result` (a
thrown level becomes `Err(ResearchError('Research execution failed'))`). -/
def DefaultResearchService.conductResearch
    (env : ℕ → ResearchContext → Option ProcessedResults) (depth : ℕ) :
    Result ResearchResult ResearchError :=
  match DefaultResearchService.executeResearchDepth env
      { learnings := [], learningReliabilities := [], visitedUrls := [],
        researchDirections := [] } depth with
  | some r => Result.Ok r
  | none => Result.Err { message := "Research execution failed" }

/-- Modelled from the spec: the per-level source-processing step
(`processSearchResults` is an explicit placeholder in the source's
research service; the operative logic lives in `src/deep-research.ts`,
which is absent from the source tree).  Per the spec, "sources already
visited in a prior depth are skipped outright (dedup by URL)", so the
URLs a level contributes are the level's candidate URLs minus those
already visited, each at most once. -/
def specNewUrls (visited : List String) (candidates : List String) :
    List String :=
  (candidates.filter (fun u => ¬ u ∈ visited)).dedup

lemma specNewUrls_nodup (visited candidates : List String) :
    (specNewUrls visited candidates).Nodup :=
  List.nodup_dedup _

lemma specNewUrls_disjoint (visited candidates : List String) :
    ∀ u ∈ specNewUrls visited candidates, u ∉ visited := by
  intro u hu
  rw [specNewUrls, List.mem_dedup, List.mem_filter] at hu
  simpa using hu.2

lemma executeResearchDepth_visited_nodup
    (env : ℕ → ResearchContext → Option ProcessedResults)
    (henv : ∀ d ctx pr, env d ctx = some pr →
      ∃ cands, pr.newUrls = specNewUrls ctx.visitedUrls cands)
    (d : ℕ) :
    ∀ ctx res, ctx.visitedUrls.Nodup →
      DefaultResearchService.executeResearchDepth env ctx d = some res →
      res.visitedUrls.Nodup := by
  induction d with
  | zero =>
    intro ctx res hctx hres
    simp only [DefaultResearchService.executeResearchDepth,
      Option.some.injEq] at hres
    subst hres
    exact hctx
  | succ d ih =>
    intro ctx res hctx hres
    simp only [DefaultResearchService.executeResearchDepth] at hres
    cases henv' : env (d + 1) ctx with
    | none => rw [henv'] at hres; cases hres
    | some pr =>
      rw [henv'] at hres
      simp only at hres
      obtain ⟨cands, hcands⟩ := henv (d + 1) ctx pr henv'
      have hupd : (ctx.visitedUrls ++ pr.newUrls).Nodup := by
        rw [hcands]
        refine List.Nodup.append hctx (specNewUrls_nodup _ _) ?_
        intro u hu hu'
        exact specNewUrls_disjoint ctx.visitedUrls cands u hu' hu
      by_cases hd : d + 1 > 1
      · rw [if_pos hd] at hres
        exact ih _ res hupd hres
      · rw [if_neg hd] at hres
        simp only [Option.some.injEq] at hres
        subst hres
        exact hupd

/-- C3: when each depth level contributes only URLs that pass the
spec's dedup-by-URL filter (not already visited, each at most once), the
`visitedUrls` of any successfully returned research session contains no
duplicate URL across all depth levels. -/
theorem conductResearch_visitedUrls_nodup
    (env : ℕ → ResearchContext → Option ProcessedResults)
    (henv : ∀ d ctx pr, env d ctx = some pr →
      ∃ cands, pr.newUrls = specNewUrls ctx.visitedUrls cands)
    (depth : ℕ) (res : ResearchResult)
    (hres : DefaultResearchService.conductResearch env depth = Result.Ok res) :
    res.visitedUrls.Nodup := by
  unfold DefaultResearchService.conductResearch at hres
  cases hrun : DefaultResearchService.executeResearchDepth env
      { learnings := [], learningReliabilities := [], visitedUrls := [],
        researchDirections := [] } depth with
  | none => rw [hrun] at hres; cases hres
  | some r =>
    rw [hrun] at hres
    simp only [Result.Ok.injEq] at hres
    subst hres
    exact executeResearchDepth_visited_nodup env henv depth _ r
      (by simp) hrun

/-- A concrete two-level environment for the C3 witness: every level
offers candidate URLs `["u", "u", "w"]` and contributes them through the
spec's dedup filter. -/
def sampleEnvDedup : ℕ → ResearchContext → Option ProcessedResults :=
  fun _ ctx =>
    some
      { newLearnings := ["finding"], newReliabilities := [9/10],
        newUrls := specNewUrls ctx.visitedUrls ["u", "u", "w"],
        sourceMetadata := [], followUpDirections := [] }

/-- Witness for C3: running `sampleEnvDedup` to depth 2 succeeds and its
`visitedUrls` is duplicate-free. -/
theorem conductResearch_visitedUrls_nodup_witness :
    (∀ d ctx pr, sampleEnvDedup d ctx = some pr →
      ∃ cands, pr.newUrls = specNewUrls ctx.visitedUrls cands) ∧
    ∃ res, DefaultResearchService.conductResearch sampleEnvDedup 2 =
        Result.Ok res ∧ res.visitedUrls.Nodup := by
  have henv : ∀ d ctx pr, sampleEnvDedup d ctx = some pr →
      ∃ cands, pr.newUrls = specNewUrls ctx.visitedUrls cands := by
    intro d ctx pr h
    rw [sampleEnvDedup] at h
    simp only [Option.some.injEq] at h
    subst h
    exact ⟨["u", "u", "w"], rfl⟩
  refine ⟨henv, ⟨_, rfl, ?_⟩⟩
  exact conductResearch_visitedUrls_nodup sampleEnvDedup henv 2 _ rfl

lemma weightedFromAux_length (rels : List ℚ) (ls : List String) (i : ℕ) :
    (weightedFromAux rels ls i).length = ls.length := by
  induction ls generalizing i with
  | nil => rfl
  | cons l rest ih => simp [weightedFromAux, ih]

lemma weightedFromAux_get? (rels : List ℚ) (ls : List String) (i j : ℕ) :
    (weightedFromAux rels ls i).get? j =
      (ls.get? j).map (fun l =>
        { content := l, reliability := jsNumberOr (rels.get? (i + j)) (1/2) }) := by
  induction ls generalizing i j with
  | nil => simp [weightedFromAux]
  | cons l rest ih =>
    cases j with
    | zero => simp [weightedFromAux]
    | succ j =>
      have harith : i + 1 + j = i + (j + 1) := by omega
      calc (weightedFromAux rels (l :: rest) i).get? (j + 1)
          = (weightedFromAux rels rest (i + 1)).get? j := rfl
        _ = (rest.get? j).map (fun s =>
              { content := s,
                reliability := jsNumberOr (rels.get? (i + 1 + j)) (1/2) }) :=
            ih (i + 1) j
        _ = ((l :: rest).get? (j + 1)).map (fun s =>
              { content := s,
                reliability := jsNumberOr (rels.get? (i + (j + 1))) (1/2) }) := by
            rw [harith, List.get?_cons_succ]

lemma weightedFrom_get? (ls : List String) (rels : List ℚ) (j : ℕ) :
    (weightedFrom ls rels).get? j =
      (ls.get? j).map (fun l =>
        { content := l, reliability := jsNumberOr (rels.get? j) (1/2) }) := by
  simpa using weightedFromAux_get? rels ls 0 j

lemma executeResearchDepth_weighted_eq
    (env : ℕ → ResearchContext → Option ProcessedResults) (d : ℕ) :
    ∀ ctx res, DefaultResearchService.executeResearchDepth env ctx d = some res →
      res.weightedLearnings =
        weightedFrom res.learnings res.learningReliabilities := by
  induction d with
  | zero =>
    intro ctx res h
    simp only [DefaultResearchService.executeResearchDepth,
      Option.some.injEq] at h
    subst h
    rfl
  | succ d ih =>
    intro ctx res h
    simp only [DefaultResearchService.executeResearchDepth] at h
    cases henv : env (d + 1) ctx with
    | none => rw [henv] at h; cases h
    | some pr =>
      rw [henv] at h
      simp only at h
      by_cases hd : d + 1 > 1
      · rw [if_pos hd] at h
        exact ih _ res h
      · rw [if_neg hd] at h
        simp only [Option.some.injEq] at h
        subst h
        rfl

/-- C10: any result returned by `executeResearchDepth` has one weighted
learning per learning, in the same order, whose reliability is the stored
reliability at the same index except that a missing value or a stored
value of exactly 0 is replaced by the 0.5 fallback (the JavaScript
`learningReliabilities[i] || 0.5`). -/
theorem executeResearchDepth_weightedLearnings_aligned
    (env : ℕ → ResearchContext → Option ProcessedResults)
    (ctx : ResearchContext) (d : ℕ) (res : ResearchResult)
    (hres : DefaultResearchService.executeResearchDepth env ctx d = some res) :
    res.weightedLearnings.length = res.learnings.length ∧
    ∀ i, res.weightedLearnings.get? i =
      (res.learnings.get? i).map (fun l =>
        { content := l,
          reliability :=
            match res.learningReliabilities.get? i with
            | some r => if r = 0 then 1/2 else r
            | none => 1/2 }) := by
  have hw := executeResearchDepth_weighted_eq env d ctx res hres
  constructor
  · rw [hw]
    exact weightedFromAux_length _ _ _
  · intro i
    rw [hw, weightedFrom_get? res.learnings res.learningReliabilities i]
    cases res.learningReliabilities.get? i with
    | none => rfl
    | some r => rfl

/-- Environment for the C10 witness: one level contributing learnings
`["a", "b"]` with stored reliabilities `[0, 9/10]` (the first source was
scored exactly 0). -/
def sampleEnvZeroScore : ℕ → ResearchContext → Option ProcessedResults :=
  fun _ _ =>
    some
      { newLearnings := ["a", "b"], newReliabilities := [0, 9/10],
        newUrls := [], sourceMetadata := [], followUpDirections := [] }

/-- Witness for C10: at depth 1 over `sampleEnvZeroScore`, the result's
weighted learnings align with its learnings, and the learning whose
stored reliability is exactly 0 is reported with the 0.5 fallback. -/
theorem executeResearchDepth_weightedLearnings_aligned_witness :
    ∃ res, DefaultResearchService.executeResearchDepth sampleEnvZeroScore
        { learnings := [], learningReliabilities := [], visitedUrls := [],
          researchDirections := [] } 1 = some res ∧
      res.weightedLearnings.length = res.learnings.length ∧
      res.weightedLearnings.get? 0 =
        some { content := "a", reliability := 1/2 } ∧
      res.weightedLearnings.get? 1 =
        some { content := "b", reliability := 9/10 } := by
  refine ⟨_, rfl, ?_, ?_, ?_⟩
  · exact (executeResearchDepth_weightedLearnings_aligned sampleEnvZeroScore
      _ 1 _ rfl).1
  · norm_num [weightedFrom, weightedFromAux, jsNumberOr]
  · norm_num [weightedFrom, weightedFromAux, jsNumberOr]

/-! ## Source evaluation (`src/domain/sources/SourceEvaluationService.ts`) -/

/-- The `SourceItem` from `src/domain/sources/types.ts` (`null`/absent
fields are `none`). -/
structure SourceItem where
  url : Option String
  title : Option String
  markdown : Option String
deriving Repr, DecidableEq

/-- The `ReliabilityAssessment` from `src/domain/sources/types.ts`. -/
structure ReliabilityAssessment where
  score : ℚ
  reasoning : String
  use : Bool
  preferenceReason : Option String
  domain : String
deriving Repr, DecidableEq

/-- The `SourceEvaluationParams` from `src/domain/sources/types.ts`. -/
structure SourceEvaluationParams where
  item : SourceItem
  query : String
  sourcePreferences : Option String
deriving Repr, DecidableEq

/-- The structured reply `generateObject` must produce for the
evaluation's zod schema
`{ score: number, reasoning: string, use: boolean, preferenceReason?: string }`. -/
structure EvalObjectReply where
  score : ℚ
  reasoning : String
  use : Bool
  preferenceReason : Option String
deriving Repr, DecidableEq

/-- Modelled from the spec: `trimPrompt` (imported from
`src/ai/providers.ts`, which is absent from the source tree) truncates
content to a fixed maximum length — "content beyond the limit is
dropped, not summarized, to bound prompt size". -/
def trimPrompt (s : String) (maxLen : ℕ) : String :=
  s.take maxLen

/-- The `prefBlock` ternary: the preference block is emitted only when
`sourcePreferences` is a truthy string whose trimmed form is nonempty. -/
def prefBlockFor (sourcePreferences : Option String) : String :=
  match sourcePreferences with
  | some p =>
    if 0 < p.trim.length then
      "User preferences to avoid (apply holistically, not via keywords):\n<preferences>" ++
        p ++
        "</preferences>\n\nAlso return whether this source should be USED given these preferences."
    else
      "No special user preferences provided."
  | none => "No special user preferences provided."

/-- The `const url = item.url || ''` followed by the guarded hostname parse:
an empty URL gives an empty domain, and a `new URL(url)` parse failure
(modelled by `parseHost` returning `none`) is caught and also gives an
empty domain. -/
def resolvedDomain (params : SourceEvaluationParams)
    (parseHost : String → Option String) : String :=
  let url := params.item.url.getD ""
  if url = "" then "" else (parseHost url).getD ""

/-- The user prompt template of `evaluateReliability`, with the
interpolated url, domain, title, truncated content and preference
block. -/
def evaluationPrompt (params : SourceEvaluationParams) (domain : String) :
    String :=
  let url := params.item.url.getD ""
  let title := params.item.title.getD ""
  let contentSnippet := trimPrompt (params.item.markdown.getD "") 4000
  let prefBlock := prefBlockFor params.sourcePreferences
  "Evaluate the reliability and suitability of this source for the research query. Provide a reliability score and a brief reasoning. If user preferences are provided, judge suitability holistically against them.\n\n" ++
    prefBlock ++ "\n\nResearch query:\n<query>" ++ params.query ++
    "</query>\n\nSource:\n- URL: " ++ url ++ "\n- Domain: " ++ domain ++
    "\n- Title: " ++ title ++ "\n- Content (truncated):\n\"\"\"\n" ++
    contentSnippet ++
    "\n\"\"\"\n\nReturn JSON: \x7b \"score\": number (0..1), \"reasoning\": string, \"use\": boolean, \"preferenceReason\"?: string \x7d"

/-- The `DefaultSourceEvaluationService.evaluateReliability`: resolve the
domain (parse failures caught to an empty domain), build the evaluation
prompt, submit system prompt and user prompt to the model capability
(`oracle`; `Except.error` models any thrown model failure — timeout,
malformed reply, provider error) and map the structured reply onto a
`ReliabilityAssessment`; the surrounding `try`/`catch` converts every
thrown failure into `Err(AIModelError('Failed to evaluate source
reliability', cause))`. -/
def DefaultSourceEvaluationService.evaluateReliability
    (params : SourceEvaluationParams)
    (parseHost : String → Option String)
    (systemPromptText : String)
    (oracle : String → String → Except String EvalObjectReply) :
    Result ReliabilityAssessment AIModelError :=
  let domain := resolvedDomain params parseHost
  match oracle systemPromptText (evaluationPrompt params domain) with
  | .ok o =>
      Result.Ok
        { score := o.score, reasoning := o.reasoning, use := o.use,
          preferenceReason := o.preferenceReason, domain := domain }
  | .error e =>
      Result.Err
        { message := "Failed to evaluate source reliability", cause := some e }

/-- C5: `evaluateReliability` never throws past its boundary: whatever
the input and however the model capability behaves, the call returns a
`Result` — `Ok` on a structured reply, and on any model failure the
typed `Err(AIModelError('Failed to evaluate source reliability', e))`. -/
theorem evaluateReliability_never_throws
    (params : SourceEvaluationParams) (parseHost : String → Option String)
    (systemPromptText : String)
    (oracle : String → String → Except String EvalObjectReply) :
    ((∃ a, DefaultSourceEvaluationService.evaluateReliability params
        parseHost systemPromptText oracle = Result.Ok a) ∨
      (∃ err, DefaultSourceEvaluationService.evaluateReliability params
          parseHost systemPromptText oracle = Result.Err err ∧
        err.message = "Failed to evaluate source reliability")) ∧
    (∀ e, oracle systemPromptText
        (evaluationPrompt params (resolvedDomain params parseHost)) =
          Except.error e →
      DefaultSourceEvaluationService.evaluateReliability params parseHost
          systemPromptText oracle =
        Result.Err
          { message := "Failed to evaluate source reliability",
            cause := some e }) := by
  cases horacle : oracle systemPromptText
      (evaluationPrompt params (resolvedDomain params parseHost)) with
  | ok o =>
    have hev : DefaultSourceEvaluationService.evaluateReliability params
        parseHost systemPromptText oracle =
        Result.Ok
          { score := o.score, reasoning := o.reasoning, use := o.use,
            preferenceReason := o.preferenceReason,
            domain := resolvedDomain params parseHost } := by
      unfold DefaultSourceEvaluationService.evaluateReliability
      simp only [horacle]
    refine ⟨Or.inl ⟨_, hev⟩, fun e he => ?_⟩
    cases he
  | error e =>
    have hev : DefaultSourceEvaluationService.evaluateReliability params
        parseHost systemPromptText oracle =
        Result.Err
          { message := "Failed to evaluate source reliability",
            cause := some e } := by
      unfold DefaultSourceEvaluationService.evaluateReliability
      simp only [horacle]
    refine ⟨Or.inr ⟨_, hev, rfl⟩, fun e' he' => ?_⟩
    cases he'
    exact hev

/-- Witness for C5: a concrete source whose model call times out — the
evaluator returns the typed error, it does not throw. -/
theorem evaluateReliability_never_throws_witness :
    ((fun _ _ => Except.error "timeout" :
        String → String → Except String EvalObjectReply) "sys"
      (evaluationPrompt
        { item := { url := some "https://example.com/a", title := none,
                    markdown := some "content" },
          query := "q", sourcePreferences := none }
        (resolvedDomain
          { item := { url := some "https://example.com/a", title := none,
                      markdown := some "content" },
            query := "q", sourcePreferences := none }
          (fun _ => none))) = Except.error "timeout") ∧
    DefaultSourceEvaluationService.evaluateReliability
        { item := { url := some "https://example.com/a", title := none,
                    markdown := some "content" },
          query := "q", sourcePreferences := none }
        (fun _ => none) "sys" (fun _ _ => Except.error "timeout") =
      Result.Err
        { message := "Failed to evaluate source reliability",
          cause := some "timeout" } := by
  refine ⟨rfl, ?_⟩
  exact (evaluateReliability_never_throws
    { item := { url := some "https://example.com/a", title := none,
                markdown := some "content" },
      query := "q", sourcePreferences := none }
    (fun _ => none) "sys" (fun _ _ => Except.error "timeout")).2 "timeout" rfl

/-! ## MCP tool layer (`src/mcp-server.ts`, both server copies) -/

/-- The arguments of the `deep-research` and `research-sources` tools. -/
structure ResearchToolArgs where
  query : String
  depth : ℚ
  breadth : ℚ
  model : Option String
  tokenBudget : Option ℚ
  sourcePreferences : Option String

/-- The `ValidationError` of the spec's error taxonomy: bad depth/breadth/
query before any call. -/
structure ValidationError where
  message : String
deriving Repr, DecidableEq

/-- The zod schema shared by both research tools:
`query: z.string().min(1)`, `depth: z.number().min(1).max(5)`,
`breadth: z.number().min(1).max(5)`; the remaining fields are optional
and unconstrained. -/
def researchToolSchemaAccepts (a : ResearchToolArgs) : Bool :=
  decide (1 ≤ a.query.length) && decide ((1 : ℚ) ≤ a.depth) &&
    decide (a.depth ≤ 5) && decide ((1 : ℚ) ≤ a.breadth) &&
    decide (a.breadth ≤ 5)

/-- Modelled from the spec: the MCP SDK's `server.tool` registration
(SDK code, not part of the source tree) parses incoming arguments
against the tool's zod schema before the handler runs, so "values
outside range are a validation error raised before any external call" —
the handler, which performs every search and model call, is invoked only
on arguments the schema accepts. -/
def callResearchTool {R : Type} (handler : ResearchToolArgs → R)
    (a : ResearchToolArgs) : Except ValidationError R :=
  if researchToolSchemaAccepts a then Except.ok (handler a)
  else Except.error { message := "Invalid arguments" }

/-- C6: depth or breadth outside `[1, 5]` — in particular 0 — makes both
research tools fail validation: the call returns a validation error, the
outcome is the same whatever the handler would have done (so no external
search or model call can have happened), and no success value — in
particular no zero-result success — is ever produced. -/
theorem researchTool_rejects_out_of_range {R : Type}
    (handler handler2 : ResearchToolArgs → R) (a : ResearchToolArgs)
    (hOut : a.depth < 1 ∨ 5 < a.depth ∨ a.breadth < 1 ∨ 5 < a.breadth) :
    callResearchTool handler a =
        Except.error { message := "Invalid arguments" } ∧
    callResearchTool handler a = callResearchTool handler2 a ∧
    ∀ r, callResearchTool handler a ≠ Except.ok r := by
  have hfalse : researchToolSchemaAccepts a = false := by
    unfold researchToolSchemaAccepts
    rcases hOut with h | h | h | h
    · have hd : decide ((1 : ℚ) ≤ a.depth) = false :=
        decide_eq_false (not_le.mpr h)
      simp [hd]
    · have hd : decide (a.depth ≤ (5 : ℚ)) = false :=
        decide_eq_false (not_le.mpr h)
      simp [hd]
    · have hd : decide ((1 : ℚ) ≤ a.breadth) = false :=
        decide_eq_false (not_le.mpr h)
      simp [hd]
    · have hd : decide (a.breadth ≤ (5 : ℚ)) = false :=
        decide_eq_false (not_le.mpr h)
      simp [hd]
  refine ⟨?_, ?_, ?_⟩ <;> simp [callResearchTool, hfalse]

/-- Witness for C6: `depth = 0` (with valid query and breadth) is
rejected as a validation error. -/
theorem researchTool_rejects_out_of_range_witness :
    ((0 : ℚ) < 1 ∨ 5 < (0 : ℚ) ∨ (3 : ℚ) < 1 ∨ 5 < (3 : ℚ)) ∧
    callResearchTool (fun _ => (0 : ℕ))
        { query := "q", depth := 0, breadth := 3, model := none,
          tokenBudget := none, sourcePreferences := none } =
      Except.error { message := "Invalid arguments" } := by
  refine ⟨Or.inl (by norm_num), ?_⟩
  exact (researchTool_rejects_out_of_range (fun _ => (0 : ℕ))
    (fun _ => (0 : ℕ))
    { query := "q", depth := 0, breadth := 3, model := none,
      tokenBudget := none, sourcePreferences := none }
    (Or.inl (by norm_num))).1

/-- The `reduce((acc, curr) => acc + curr.reliability, 0)` over
`weightedLearnings`, as both server copies compute it. -/
def reduceReliabilitySum (wls : List LearningWithReliability) : ℚ :=
  wls.foldl (fun acc curr => acc + curr.reliability) 0

/-- JavaScript number division as it occurs in the reliability averages:
the divisor is a list length and the dividend a finite sum, so the only
degenerate case is `0 / 0 = NaN`, modelled as `none`. -/
def jsDiv (a b : ℚ) : Option ℚ :=
  if b = 0 then none else some (a / b)

/-- The `average_reliability` (and `stats.averageReliability`) as the current
server copy's handlers compute it:
`weightedLearnings.length > 0 ? sum / length : 0`. -/
def averageReliabilityGuarded (wls : List LearningWithReliability) :
    Option ℚ :=
  if 0 < wls.length then
    jsDiv (reduceReliabilitySum wls) (wls.length : ℚ)
  else
    some 0

/-- The `average_reliability` (and `stats.averageReliability`) as the second,
older server copy's handlers compute it: `sum / length` with no
emptiness guard. -/
def averageReliabilityUnguarded (wls : List LearningWithReliability) :
    Option ℚ :=
  jsDiv (reduceReliabilitySum wls) (wls.length : ℚ)

/-- C9, evaluated at the failing input (a session with zero weighted
learnings): the older server copy's unguarded average is `0 / 0 = NaN`
(`none`), not the 0 the claim requires, while the current copy's guarded
average is 0. -/
theorem averageReliability_zero_learnings_eval :
    averageReliabilityUnguarded [] = none ∧
    averageReliabilityGuarded [] = some 0 ∧
    averageReliabilityUnguarded [] ≠ some 0 := by
  refine ⟨?_, ?_, ?_⟩ <;>
    simp [averageReliabilityUnguarded, averageReliabilityGuarded, jsDiv,
      reduceReliabilitySum]
